import Mathlib

/-!
Verification of the reconciliation-and-scoring core of the procurement
analytics dashboard (`src/dashboard/src/etl.py`, `risk_score.py`,
`constants.py`).

The Python functions are shallowly embedded as total Lean functions.
Conventions of the embedding:

* A pandas/Python cell value is modelled by `Cell`: Python `None`,
  a float `NaN`, a string, or any other (non-null, non-NaN, non-string)
  object identified by its `str(...)` rendering.  The only things the
  cleaners do with a non-string object are `isinstance`/`pd.isna` checks
  and `str(...)` conversion, so this is a faithful abstraction.
* Python floats are modelled by `ℚ`.  Every numeric fact proved below is
  about values (such as `1.2 * 1000000 = 1200000`) on which IEEE-754
  double arithmetic agrees exactly with rational arithmetic.
* `str.strip`/`str.lower` are modelled for the ASCII range, which covers
  every character the cleaners can produce or compare.
* Regular-expression operations are specialised to the literal patterns
  appearing in the source (`re.sub(r"m|mil|million", ...)` removes
  exactly the letter `m` at each position since the alternation is
  first-match; etc.), as explained at each definition.
-/

namespace Procurement

/-- A Python/pandas cell: `None`, float `NaN`, a string, or some other
object carrying its `str(...)` rendering. -/
inductive Cell where
  | null : Cell
  | nan : Cell
  | str (s : String) : Cell
  | obj (s : String) : Cell
deriving DecidableEq

/-- `pd.isna` on a cell: true for `None` and `NaN`. -/
def Cell.isna : Cell → Bool
  | .null => true
  | .nan => true
  | _ => false

/-- `str(x)` on a cell (CPython renders `None` as `"None"` and `nan` as
`"nan"`; for strings it is the identity, for other objects their
rendering). -/
def Cell.strForm : Cell → String
  | .null => "None"
  | .nan => "nan"
  | .str s => s
  | .obj s => s

-- ---------------------------------------------------------------------------
-- Character/string helpers (ASCII fragment of the Python string methods)
-- ---------------------------------------------------------------------------

/-- Python `str.isspace` characters used by `str.strip` (ASCII fragment:
space, tab, newline, carriage return, vertical tab, form feed). -/
def isPySpace (c : Char) : Bool :=
  c.toNat = 32 || c.toNat = 9 || c.toNat = 10 || c.toNat = 13 ||
  c.toNat = 11 || c.toNat = 12

/-- ASCII decimal digit. -/
def isDig (c : Char) : Bool := 48 ≤ c.toNat && c.toNat ≤ 57

/-- Python `str.lower` on one character (ASCII fragment). -/
def lowerChar (c : Char) : Char :=
  if 65 ≤ c.toNat ∧ c.toNat ≤ 90 then Char.ofNat (c.toNat + 32) else c

/-- `str.strip()` on a character list. -/
def stripList (cs : List Char) : List Char :=
  ((cs.dropWhile isPySpace).reverse.dropWhile isPySpace).reverse

/-- Python `str.strip()`. -/
def pyStrip (s : String) : String := String.mk (stripList s.data)

/-- Python `str.lower()` (ASCII fragment). -/
def pyLower (s : String) : String := String.mk (s.data.map lowerChar)

/-- Substring containment of a single character (Python `"m" in s`). -/
def containsChar (s : String) (c : Char) : Bool := s.data.contains c

-- ---------------------------------------------------------------------------
-- Rational parsing of digit/dot strings (the only shape `float(...)` is
-- applied to inside `clean_invoice_amount`, where the argument has been
-- filtered to digits and dots beforehand)
-- ---------------------------------------------------------------------------

/-- Numeric value of a digit character. -/
def digVal (c : Char) : Nat := c.toNat - 48

/-- Value of a digit list read in base 10. -/
def digitsToNat (cs : List Char) : Nat :=
  cs.foldl (fun a c => 10 * a + digVal c) 0

/-- `float(s)` for a string of digits and dots: defined exactly when at
most one dot and at least one digit is present (matching CPython
`float()` on such strings: `"12"`, `"1.2"`, `".5"`, `"5."` parse;
`""`, `"."`, `"1.2.3"` raise `ValueError`). -/
def parseFloat (s : String) : Option ℚ :=
  let cs := s.data
  if cs.all (fun c => isDig c || c = '.') &&
      cs.count '.' ≤ 1 && cs.any isDig then
    let intPart := cs.takeWhile (fun c => c ≠ '.')
    let fracPart := (cs.dropWhile (fun c => c ≠ '.')).drop 1
    some ((digitsToNat intPart : ℚ) +
      (digitsToNat fracPart : ℚ) / (10 : ℚ) ^ fracPart.length)
  else
    none

-- ---------------------------------------------------------------------------
-- constants.py
-- ---------------------------------------------------------------------------

/-- `DEFAULT_UNIT = 1000000` (constants.py). -/
def DEFAULT_UNIT : ℚ := 1000000

-- ---------------------------------------------------------------------------
-- etl.py: clean_invoice_amount
-- ---------------------------------------------------------------------------

/-- The value component returned by `clean_invoice_amount`: either the
original (possibly stripped/str-converted) input, or a parsed float. -/
inductive AmountVal where
  | orig (c : Cell) : AmountVal
  | num (q : ℚ) : AmountVal
deriving DecidableEq

/-- `re.sub(r"m|mil|million", "", s)`: the alternation is first-match, so
at each position starting with `m` the single-letter branch fires;
the substitution therefore deletes exactly the letter `m`. -/
def removeM (s : String) : String :=
  String.mk (s.data.filter (fun c => c ≠ 'm'))

/-- `re.sub(r"[^\d.]", "", s)`: keep only digits and dots. -/
def keepNumChars (s : String) : String :=
  String.mk (s.data.filter (fun c => isDig c || c = '.'))

/-- The multiple-decimal-point collapse of `clean_invoice_amount`:
`''.join(parts[:-1]) + '.' + parts[-1]` where `parts = s.split('.')` —
i.e. drop every dot except the last.  Applied only when more than one
dot is present. -/
def collapseDots (s : String) : String :=
  if s.data.count '.' > 1 then
    let idx := s.data.length - 1 - (s.data.reverse.indexOf '.')
    String.mk ((s.data.take idx).filter (fun c => c ≠ '.') ++ s.data.drop idx)
  else s

/-- `clean_invoice_amount` body once the input has been converted to the
string `s` (after the `None`/`NaN` short circuit and `str(...)`). -/
def cleanAmountStr (s : String) : Option Bool × AmountVal :=
  let original := pyStrip s
  let amount_str := pyStrip (pyLower original)
  if containsChar amount_str 'm' then
    let amount_str' := pyStrip (removeM amount_str)
    let cleaned := keepNumChars amount_str'
    match parseFloat cleaned with
    | some q => (some true, .num (q * DEFAULT_UNIT))
    | none => (none, .orig (.str original))
  else
    let cleaned := collapseDots (keepNumChars amount_str)
    match parseFloat cleaned with
    | some q => (some (cleaned ≠ original : Bool), .num q)
    | none => (none, .orig (.str original))

/-- `clean_invoice_amount` (etl.py).  `None` and float `NaN` short-circuit
to `(None, amount)`; any other input is `str(...)`-converted and cleaned. -/
def clean_invoice_amount (amount : Cell) : Option Bool × AmountVal :=
  match amount with
  | .null => (none, .orig .null)
  | .nan => (none, .orig .nan)
  | .str s => cleanAmountStr s
  | .obj s => cleanAmountStr s

-- ---------------------------------------------------------------------------
-- etl.py: clean_provider
-- ---------------------------------------------------------------------------

/-- ASCII lowercase letter (the regex class `[a-z]`). -/
def isLowerAscii (c : Char) : Bool := 97 ≤ c.toNat && c.toNat ≤ 122

/-- ASCII uppercase letter (the regex class `[A-Z]`). -/
def isUpperAscii (c : Char) : Bool := 65 ≤ c.toNat && c.toNat ≤ 90

/-- `re.sub(r'(?<=[a-z])([A-Z])', r' \1', s)`: insert a space before every
uppercase letter that immediately follows a lowercase letter. -/
def camelSplitList : List Char → List Char
  | [] => []
  | [c] => [c]
  | a :: b :: rest =>
    if isLowerAscii a && isUpperAscii b then
      a :: ' ' :: camelSplitList (b :: rest)
    else
      a :: camelSplitList (b :: rest)

/-- String version of `camelSplitList`. -/
def camelSplit (s : String) : String := String.mk (camelSplitList s.data)

/-- `re.sub(r"\(AU\)|(AUS)", "", s)`: note the second alternative is the
bare text `AUS` (the parentheses are a regex group), so the pattern
removes the literal `(AU)` and the literal `AUS`.  At each position the
alternatives are tried in order, as in the Python regex engine. -/
def stripAUSList : List Char → List Char
  | '(' :: 'A' :: 'U' :: ')' :: rest => stripAUSList rest
  | 'A' :: 'U' :: 'S' :: rest => stripAUSList rest
  | c :: rest => c :: stripAUSList rest
  | [] => []

/-- String version of `stripAUSList`. -/
def stripAUS (s : String) : String := String.mk (stripAUSList s.data)

/-- `fuzzywuzzy.process.extractOne(query, choices, scorer)`: `None` on an
empty choice list, otherwise the first choice attaining the maximal
score, paired with its score.  The scorer is a parameter of the
embedding: `fuzz.token_set_ratio` is external library code, and each
claim about `clean_provider` constrains only the scores it needs. -/
def extractOne (score : String → String → Nat) (query : String) :
    List String → Option (String × Nat)
  | [] => none
  | c :: cs =>
    some (cs.foldl
      (fun best x => if score query x > best.2 then (x, score query x) else best)
      (c, score query c))

/-- The second (lenient) pass of `clean_provider`: camel-case splitting,
`(AU)`/`AUS` stripping, then a fuzzy search accepted above
`low_threshold`. -/
def lenientPass (score : String → String → Nat) (original : String)
    (correct_providers : List String) (low_threshold : Nat) :
    Option Bool × Cell :=
  let cleaned := pyStrip (stripAUS (pyStrip (camelSplit original)))
  match extractOne score cleaned correct_providers with
  | some best_match =>
    if best_match.2 > low_threshold then
      if best_match.1 ≠ original then (some true, .str best_match.1)
      else (some false, .str original)
    else (none, .str original)
  | none => (none, .str original)

/-- `clean_provider` (etl.py): two-pass fuzzy normalisation.  A falsy or
non-string input short-circuits to `(None, provider)`. -/
def clean_provider (score : String → String → Nat) (provider : Cell)
    (correct_providers : List String)
    (high_threshold : Nat := 80) (low_threshold : Nat := 60) :
    Option Bool × Cell :=
  match provider with
  | .str s =>
    if s = "" then (none, .str s)
    else
      let original := pyStrip s
      match extractOne score original correct_providers with
      | some best_match =>
        if best_match.2 ≥ high_threshold then
          if best_match.1 ≠ original then (some true, .str best_match.1)
          else (some false, .str original)
        else lenientPass score original correct_providers low_threshold
      | none => lenientPass score original correct_providers low_threshold
  | c => (none, c)

-- ---------------------------------------------------------------------------
-- etl.py: clean_date
-- ---------------------------------------------------------------------------

/-- One digit character (`n` taken mod 10). -/
def digChar (n : Nat) : Char := Char.ofNat (48 + n % 10)

/-- Two-digit zero-padded rendering (`strftime` `%m`, `%d`). -/
def pad2 (n : Nat) : List Char := [digChar (n / 10 % 10), digChar (n % 10)]

/-- Four-digit zero-padded rendering (`strftime` `%Y`).  CPython's
documentation renders `%Y` zero-padded (`0001`, …, `2013`); C libraries
differ on years below 1000, which no date the pipeline handles reaches. -/
def pad4 (n : Nat) : List Char :=
  [digChar (n / 1000 % 10), digChar (n / 100 % 10),
   digChar (n / 10 % 10), digChar (n % 10)]

/-- `datetime.strftime("%Y-%m-%d")`. -/
def isoFormat (y m d : Nat) : String :=
  String.mk (pad4 y ++ '-' :: pad2 m ++ '-' :: pad2 d)

/-- The separator normalisation of `clean_date`:
`.replace(",", "").replace("/", "-").replace(" ", "-")`. -/
def normalizeSeps (cs : List Char) : List Char :=
  (cs.filter (fun c => c ≠ ',')).map
    (fun c => if c = '/' then '-' else if c = ' ' then '-' else c)

/-- Split a character list at every `'-'` (the separator every strptime
pattern below uses after normalisation). -/
def splitDash : List Char → List (List Char)
  | [] => [[]]
  | c :: rest =>
    if c = '-' then [] :: splitDash rest
    else
      match splitDash rest with
      | [] => [[c]]
      | h :: t => (c :: h) :: t

/-- A strptime directive appearing in the formats of `clean_date`. -/
inductive DComp where
  | Y4 : DComp    -- %Y: exactly four digits
  | y2 : DComp    -- %y: exactly two digits, 00-68 ↦ 2000s, 69-99 ↦ 1900s
  | m2 : DComp    -- %m: 1-12, one or two digits
  | d2 : DComp    -- %d: 1-31, one or two digits (or space + digit)
  | bAbbr : DComp -- %b: abbreviated month name, case-insensitive
  | bFull : DComp -- %B: full month name, case-insensitive
deriving DecidableEq

/-- Which date field a directive produces. -/
inductive DRole where
  | year : DRole
  | month : DRole
  | day : DRole
deriving DecidableEq

/-- Role of each directive. -/
def compRole : DComp → DRole
  | .Y4 => .year
  | .y2 => .year
  | .m2 => .month
  | .d2 => .day
  | .bAbbr => .month
  | .bFull => .month

/-- C-locale abbreviated month names (lowercased, as CPython's
`_strptime` matches them case-insensitively). -/
def monthAbbrevs : List String :=
  ["jan", "feb", "mar", "apr", "may", "jun",
   "jul", "aug", "sep", "oct", "nov", "dec"]

/-- C-locale full month names (lowercased). -/
def monthNames : List String :=
  ["january", "february", "march", "april", "may", "june",
   "july", "august", "september", "october", "november", "december"]

/-- Match one strptime directive against one whole dash-separated
component, following the regexes CPython compiles for each directive
(`%d`: `3[01]|[12]\d|0[1-9]|[1-9]| [1-9]`, `%m`: `1[0-2]|0[1-9]|[1-9]`,
`%Y`: `\d\d\d\d`, `%y`: `\d\d`, month names by case-insensitive
alternation). -/
def parseComp : DComp → List Char → Option Nat
  | .Y4, cs =>
    match cs with
    | [a, b, c, d] =>
      if isDig a && isDig b && isDig c && isDig d then
        some (digitsToNat [a, b, c, d])
      else none
    | _ => none
  | .y2, cs =>
    match cs with
    | [a, b] =>
      if isDig a && isDig b then
        let v := digitsToNat [a, b]
        some (if v ≤ 68 then 2000 + v else 1900 + v)
      else none
    | _ => none
  | .m2, cs =>
    match cs with
    | [a] => if isDig a && 1 ≤ digVal a then some (digVal a) else none
    | [a, b] =>
      if isDig a && isDig b && 1 ≤ digitsToNat [a, b] && digitsToNat [a, b] ≤ 12 then
        some (digitsToNat [a, b])
      else none
    | _ => none
  | .d2, cs =>
    match cs with
    | [a] => if isDig a && 1 ≤ digVal a then some (digVal a) else none
    | [a, b] =>
      if a = ' ' then
        if isDig b && 1 ≤ digVal b then some (digVal b) else none
      else if isDig a && isDig b && 1 ≤ digitsToNat [a, b] &&
          digitsToNat [a, b] ≤ 31 then
        some (digitsToNat [a, b])
      else none
    | _ => none
  | .bAbbr, cs =>
    let w := String.mk (cs.map lowerChar)
    let i := monthAbbrevs.indexOf w
    if i < 12 then some (i + 1) else none
  | .bFull, cs =>
    let w := String.mk (cs.map lowerChar)
    let i := monthNames.indexOf w
    if i < 12 then some (i + 1) else none

/-- Gregorian leap year. -/
def isLeap (y : Nat) : Bool := (y % 4 = 0 && y % 100 ≠ 0) || y % 400 = 0

/-- Days in a month (as validated by the `datetime` constructor). -/
def daysInMonth (y m : Nat) : Nat :=
  if m = 2 then (if isLeap y then 29 else 28)
  else if m = 4 || m = 6 || m = 9 || m = 11 then 30
  else 31

/-- The `datetime(year, month, day)` constructor's validity check. -/
def validDate (y m d : Nat) : Bool :=
  1 ≤ y && y ≤ 9999 && 1 ≤ m && m ≤ 12 && 1 ≤ d && d ≤ daysInMonth y m

/-- Recover the `(role, value)` list of one fully matched format. -/
def pickRole (r : DRole) (l : List (DRole × Nat)) : Option Nat :=
  (l.find? (fun p => p.1 = r)).map (fun p => p.2)

/-- `datetime.strptime` specialised to a three-component dash-separated
format: every component must match, the assembled date must pass the
`datetime` constructor's validation. -/
def parseFmt (f : DComp × DComp × DComp) (parts : List (List Char)) :
    Option (Nat × Nat × Nat) :=
  match parts with
  | [p1, p2, p3] =>
    match parseComp f.1 p1, parseComp f.2.1 p2, parseComp f.2.2 p3 with
    | some v1, some v2, some v3 =>
      let rvs := [(compRole f.1, v1), (compRole f.2.1, v2), (compRole f.2.2, v3)]
      match pickRole .year rvs, pickRole .month rvs, pickRole .day rvs with
      | some y, some m, some d =>
        if validDate y m d then some (y, m, d) else none
      | _, _, _ => none
    | _, _, _ => none
  | _ => none

/-- The ordered format list of `clean_date` (etl.py):
`%Y-%m-%d`, `%d-%m-%Y`, `%m-%d-%Y`, `%d-%b-%Y`, `%d-%B-%Y`,
`%B-%d-%Y`, `%y-%m-%d`. -/
def dateFormats : List (DComp × DComp × DComp) :=
  [(.Y4, .m2, .d2), (.d2, .m2, .Y4), (.m2, .d2, .Y4), (.d2, .bAbbr, .Y4),
   (.d2, .bFull, .Y4), (.bFull, .d2, .Y4), (.y2, .m2, .d2)]

/-- The `for fmt in formats` loop: first format that parses (and builds a
valid `datetime`) wins. -/
def tryFormats : List (DComp × DComp × DComp) → List (List Char) →
    Option (Nat × Nat × Nat)
  | [], _ => none
  | f :: fs, parts =>
    match parseFmt f parts with
    | some ymd => some ymd
    | none => tryFormats fs parts

/-- `clean_date` body for a non-blank string input. -/
def cleanDateStr (s : String) : Option Bool × Cell :=
  let original := pyStrip s
  let date_str_clean := normalizeSeps (stripList s.data)
  match tryFormats dateFormats (splitDash date_str_clean) with
  | some (y, m, d) =>
    let cleaned := isoFormat y m d
    if cleaned ≠ original then (some true, .str cleaned)
    else (some false, .str original)
  | none => (none, .str original)

/-- `clean_date` (etl.py).  Missing / non-string / blank input
short-circuits to `(None, date_str)`. -/
def clean_date (date_str : Cell) : Option Bool × Cell :=
  match date_str with
  | .str s => if pyStrip s = "" then (none, .str s) else cleanDateStr s
  | c => (none, c)

-- ---------------------------------------------------------------------------
-- Contract registry (utils.get_provider_to_contracts_dict output shape)
-- ---------------------------------------------------------------------------

/-- One `{contract_title, contract_number}` record of the provider-to-
contracts mapping.  Contract numbers are modelled as strings (they are
scraped as stripped text; the `str(...)` conversions applied to them in
the resolvers are then the identity). -/
structure Contract where
  contract_title : String
  contract_number : String
deriving DecidableEq

/-- The `provider -> list of contracts` dictionary, as an association
list with string keys. -/
def Registry := List (String × List Contract)

/-- `dict.get(k)` for a string key. -/
def regGet (reg : Registry) (k : String) : Option (List Contract) :=
  (reg.find? (fun p => p.1 = k)).map (fun p => p.2)

/-- `provider_clean in provider_to_contracts_dict`: only a string can
equal one of the string keys. -/
def cellKeyMem (reg : Registry) (c : Cell) : Bool :=
  match c with
  | .str s => (regGet reg s).isSome
  | _ => false

/-- `dict.get(provider_clean)`: `None` unless the cell is a string key. -/
def cellRegGet (reg : Registry) (c : Cell) : Option (List Contract) :=
  match c with
  | .str s => regGet reg s
  | _ => none

/-- `pd.isna(x) or str(x).strip() == ""` — the blankness test both
resolvers use. -/
def isBlankCell (c : Cell) : Bool :=
  c.isna || pyStrip c.strForm = ""

/-- Membership of a cell in a set of strings (`x in {strings}`): only a
string cell can be a member. -/
def cellInStrs (c : Cell) (l : List String) : Bool :=
  match c with
  | .str s => l.contains s
  | _ => false

/-- Python `some_string == cell`: true only for an equal string cell. -/
def cellEqStr (c : Cell) (s : String) : Bool :=
  match c with
  | .str t => t = s
  | _ => false

/-- `x.strip()` on the string form of a cell (in `clean_title`'s scan
branch the source calls `.strip()` on the raw number, which presumes a
string; the claims only exercise it on strings). -/
def cellStripStr (c : Cell) : String := pyStrip c.strForm

-- ---------------------------------------------------------------------------
-- etl.py: clean_title
-- ---------------------------------------------------------------------------

/-- `clean_title` (etl.py): recover a contract title from the cleaned
provider and the raw contract number. -/
def clean_title (provider_clean contract_title contract_num : Cell)
    (provider_to_contracts_dict : Registry) : Option Bool × Cell :=
  if isBlankCell contract_title &&
      !cellKeyMem provider_to_contracts_dict provider_clean then
    (none, contract_title)
  else
    match cellRegGet provider_to_contracts_dict provider_clean with
    | none => (none, contract_title)          -- `if not contracts` (None)
    | some [] => (none, contract_title)       -- `if not contracts` (empty)
    | some (c0 :: rest) =>
      let valid_titles := (c0 :: rest).map (fun c => c.contract_title)
      if !cellInStrs contract_title valid_titles then
        if isBlankCell contract_num then (none, contract_title)
        else if rest.isEmpty then (some true, .str c0.contract_title)
        else
          match (c0 :: rest).find?
              (fun c => c.contract_number = cellStripStr contract_num) with
          | some c => (some true, .str c.contract_title)
          | none => (none, contract_title)
      else (some false, contract_title)

-- ---------------------------------------------------------------------------
-- etl.py: clean_number
-- ---------------------------------------------------------------------------

/-- `clean_number` (etl.py).  Note the registry lookup
`provider_to_contracts_dict.get("")`: the key is the empty string, not
the cleaned provider name — embedded exactly as written. -/
def clean_number (provider_clean contract_number title_clean : Cell)
    (provider_to_contracts_dict : Registry) : Option Bool × Cell :=
  if isBlankCell contract_number &&
      !cellKeyMem provider_to_contracts_dict provider_clean then
    (none, contract_number)
  else
    match regGet provider_to_contracts_dict "" with
    | none => (none, contract_number)         -- `if not contracts` (None)
    | some [] => (none, contract_number)      -- `if not contracts` (empty)
    | some (c0 :: rest) =>
      let valid_nums := (c0 :: rest).map (fun c => c.contract_number)
      if !cellInStrs contract_number valid_nums then
        if isBlankCell title_clean then (none, contract_number)
        else if rest.isEmpty then (some true, .str c0.contract_number)
        else
          match (c0 :: rest).find?
              (fun c => cellEqStr title_clean c.contract_title) with
          | some c => (some true, .str c.contract_number)
          | none => (none, contract_number)
      else (some false, contract_number)

-- ---------------------------------------------------------------------------
-- etl.py: record_issue (per-record view)
-- ---------------------------------------------------------------------------

/-- `s.replace("_Flag", "")` on a character list: delete every
(leftmost, non-overlapping) occurrence of `_Flag`. -/
def removeFlagSuffix : List Char → List Char
  | '_' :: 'F' :: 'l' :: 'a' :: 'g' :: rest => removeFlagSuffix rest
  | c :: rest => c :: removeFlagSuffix rest
  | [] => []

/-- `s.replace("_Clean", "")` on a character list. -/
def removeCleanSuffix : List Char → List Char
  | '_' :: 'C' :: 'l' :: 'e' :: 'a' :: 'n' :: rest => removeCleanSuffix rest
  | c :: rest => c :: removeCleanSuffix rest
  | [] => []

/-- Field name derived from a flag column (`col.replace("_Flag", "")`). -/
def fieldNameOf (col : String) : String :=
  String.mk (removeFlagSuffix col.data)

/-- One loop iteration of `record_issue`: append the derived field name
to the failed ledger when the flag is `None`/`NaN`, to the modified
ledger when it is `True`, to neither when it is `False`. -/
def recordIssueStep (acc : List String × List String)
    (p : String × Option Bool) : List String × List String :=
  let field_name := fieldNameOf p.1
  match p.2 with
  | none => (acc.1 ++ [field_name], acc.2)
  | some true => (acc.1, acc.2 ++ [field_name])
  | some false => acc

/-- `record_issue` (etl.py), restricted to one record: fold over the
`*_Flag` columns.  Both ledgers start empty for a freshly cleaned
record. -/
def record_issue (flagCols : List (String × Option Bool)) :
    List String × List String :=
  flagCols.foldl recordIssueStep ([], [])

-- ---------------------------------------------------------------------------
-- risk_score.py
-- ---------------------------------------------------------------------------

/-- `FAILED_WEIGHTS.get(base, 5)` (risk_score.py): per-field weight for a
field that failed cleaning, with default 5. -/
def FAILED_WEIGHTS_get (base : String) : Nat :=
  if base = "Provider" then 5
  else if base = "InvoiceAmount" then 8
  else if base = "InvoiceDate" then 3
  else if base = "Title" then 5
  else if base = "Number" then 5
  else 5

/-- `MODIFIED_WEIGHTS.get(base, 2)` (risk_score.py): per-field weight for
a field that was modified, with default 2. -/
def MODIFIED_WEIGHTS_get (base : String) : Nat :=
  if base = "Provider" then 2
  else if base = "InvoiceAmount" then 4
  else if base = "InvoiceDate" then 1
  else if base = "Title" then 2
  else if base = "Number" then 2
  else 2

/-- `CONTRACT_WEIGHTS` (risk_score.py). -/
def CONTRACT_WEIGHTS_Expired : Nat := 15

/-- `CONTRACT_WEIGHTS["ExpiringSoon"]`. -/
def CONTRACT_WEIGHTS_ExpiringSoon : Nat := 5

/-- `CONTRACT_WEIGHTS["ContractMismatch"]`. -/
def CONTRACT_WEIGHTS_ContractMismatch : Nat := 10

/-- `FINANCIAL_WEIGHTS["HighAmount"]`. -/
def FINANCIAL_WEIGHTS_HighAmount : Nat := 10

/-- `FINANCIAL_WEIGHTS["LowAmount"]`. -/
def FINANCIAL_WEIGHTS_LowAmount : Nat := 7

/-- `HIGH_AMOUNT_THRESHOLD` (risk_score.py). -/
def HIGH_AMOUNT_THRESHOLD : ℚ := 1000000

/-- `LOW_AMOUNT_THRESHOLD` (risk_score.py). -/
def LOW_AMOUNT_THRESHOLD : ℚ := 100

/-- ASCII uppercase conversion of one character. -/
def upperChar (c : Char) : Char :=
  if 97 ≤ c.toNat ∧ c.toNat ≤ 122 then Char.ofNat (c.toNat - 32) else c

/-- Python `str.capitalize()`: first character uppercased, the rest
lowercased (ASCII fragment). -/
def pyCapitalize (s : String) : String :=
  match s.data with
  | [] => ""
  | c :: rest => String.mk (upperChar c :: rest.map lowerChar)

/-- The field-name normalisation of `compute_risk_score`:
`str(field).replace("_Clean", "").replace("_Flag", "").capitalize()`. -/
def baseOf (field : String) : String :=
  pyCapitalize (String.mk (removeFlagSuffix (removeCleanSuffix field.data)))

/-- `safe_float` applied to a string: CPython `float(str)` restricted to
the optionally signed digits-and-dot literals the pipeline produces
(exponents, `inf`/`nan` literals and digit underscores are accepted by
CPython but are not reachable from any claim and are not modelled). -/
def safeFloatStr (s : String) : Option ℚ :=
  let cs := stripList s.data
  match cs with
  | '+' :: rest => parseFloat (String.mk rest)
  | '-' :: rest => (parseFloat (String.mk rest)).map (fun q => -q)
  | _ => parseFloat (String.mk cs)

/-- `safe_float` (risk_score.py): `float(x)` with invalid inputs mapped
to NaN; a NaN result is what `pd.notna` later rejects, so it is
modelled as `none`. -/
def safe_float (v : AmountVal) : Option ℚ :=
  match v with
  | .num q => some q
  | .orig (.str s) => safeFloatStr s
  | .orig _ => none

/-- `safe_date` (risk_score.py): `pd.to_datetime(x, errors="coerce")`.
The pipeline only feeds it ISO `YYYY-MM-DD` strings (`InvoiceDate_Clean`
and registry expiry dates); the model parses exactly those and coerces
everything else to `NaT` (`none`).  No claim depends on the matched-
contract branch where this is used. -/
def safe_date (c : Cell) : Option (Nat × Nat × Nat) :=
  match c with
  | .str s => parseFmt (.Y4, .m2, .d2) (splitDash (stripList s.data))
  | _ => none

/-- Day number of a calendar date (days since 1970-01-01, civil-calendar
conversion), used for the `inv_date > expiry` and
`(expiry - inv_date).days` comparisons. -/
def dayNumber (ymd : Nat × Nat × Nat) : ℤ :=
  let y : ℤ := if ymd.2.1 ≤ 2 then (ymd.1 : ℤ) - 1 else (ymd.1 : ℤ)
  let era : ℤ := (if 0 ≤ y then y else y - 399) / 400
  let yoe : ℤ := y - era * 400
  let mp : ℤ := ((ymd.2.1 : ℤ) + 9) % 12
  let doy : ℤ := (153 * mp + 2) / 5 + (ymd.2.2 : ℤ) - 1
  let doe : ℤ := yoe * 365 + yoe / 4 - yoe / 100 + doy
  era * 146097 + doe - 719468

/-- A contract as stored in the risk model's `(provider, title, number)`
keyed lookup; only its `expiry_date` is read by `compute_risk_score`. -/
structure RContract where
  expiry_date : Cell
deriving DecidableEq

/-- The cleaned-record fields `compute_risk_score` reads from its row. -/
structure Row where
  FailedFields : List String
  ModifiedFields : List String
  Provider_Clean : Cell
  ContractTitle_Clean : Cell
  ContractNumber_Clean : Cell
  InvoiceAmount_Clean : AmountVal
  InvoiceDate_Clean : Cell

/-- The four scores `compute_risk_score` attaches to a record. -/
structure RiskOut where
  RiskScore : Nat
  DataQualityRisk : Nat
  ContractRisk : Nat
  FinancialRisk : Nat
deriving DecidableEq

/-- `contract_map.get(key)` for the `(provider, title, number)` triple. -/
def mapGet (contract_map : List ((Cell × Cell × Cell) × RContract))
    (key : Cell × Cell × Cell) : Option RContract :=
  (contract_map.find? (fun p => p.1 = key)).map (fun p => p.2)

/-- `compute_risk_score` (risk_score.py). -/
def compute_risk_score (row : Row)
    (contract_map : List ((Cell × Cell × Cell) × RContract)) : RiskOut :=
  let dq1 := row.FailedFields.foldl
    (fun a f => a + FAILED_WEIGHTS_get (baseOf f)) 0
  let data_quality_risk := row.ModifiedFields.foldl
    (fun a f => a + MODIFIED_WEIGHTS_get (baseOf f)) dq1
  let amount := safe_float row.InvoiceAmount_Clean
  let inv_date := safe_date row.InvoiceDate_Clean
  let key := (row.Provider_Clean, row.ContractTitle_Clean,
    row.ContractNumber_Clean)
  let contract_risk :=
    match mapGet contract_map key with
    | some contract =>
      match safe_date contract.expiry_date, inv_date with
      | some expiry, some inv =>
        if dayNumber inv > dayNumber expiry then CONTRACT_WEIGHTS_Expired
        else if 0 ≤ dayNumber expiry - dayNumber inv ∧
            dayNumber expiry - dayNumber inv ≤ 90 then
          CONTRACT_WEIGHTS_ExpiringSoon
        else 0
      | _, _ => 0
    | none => CONTRACT_WEIGHTS_ContractMismatch
  let financial_risk :=
    match amount with
    | some q =>
      if q > HIGH_AMOUNT_THRESHOLD then FINANCIAL_WEIGHTS_HighAmount
      else if q < LOW_AMOUNT_THRESHOLD then FINANCIAL_WEIGHTS_LowAmount
      else 0
    | none => 0
  ⟨data_quality_risk + contract_risk + financial_risk,
   data_quality_risk, contract_risk, financial_risk⟩

-- ---------------------------------------------------------------------------
-- Claims
-- ---------------------------------------------------------------------------

/-- C1: the Number Resolver's registry lookup key is the empty string, so
for every registry index with no entry under the empty-string key,
`clean_number` returns the unresolved outcome (flag `None`) with the
original contract number retained, for every combination of cleaned
provider, raw number, and cleaned title. -/
theorem C1_clean_number_disabled (reg : Registry)
    (hreg : regGet reg "" = none) :
    ∀ provider_clean contract_number title_clean,
      clean_number provider_clean contract_number title_clean reg =
        (none, contract_number) := by
  intro p n t
  unfold clean_number
  rw [hreg]
  split <;> rfl

/-- Witness for C1 on a concrete registry with a real provider entry and
no empty-string key. -/
theorem C1_clean_number_disabled_witness :
    clean_number (.str "Acme") (.str "X-1") (.str "Road works")
      [("Acme", [⟨"Road works", "7001"⟩])] = (none, .str "X-1") :=
  C1_clean_number_disabled _ (by decide) _ _ _

/-- C2 (evaluation at the claim's input): for a record whose
`FailedFields` is exactly `["InvoiceAmount"]`, `ModifiedFields` empty,
key triple absent from the contract map and cleaned amount 2 000 000,
`compute_risk_score` yields `DataQualityRisk = 5` (not 8) and
`RiskScore = 25` (not 28): `"InvoiceAmount".capitalize()` is
`"Invoiceamount"`, which misses the `FAILED_WEIGHTS` key and falls to
the default weight 5. -/
theorem C2_risk_score_amount_failure_eval :
    compute_risk_score
      ⟨["InvoiceAmount"], [], .str "P", .str "T", .str "N",
        .num 2000000, .str "2025-01-01"⟩ [] =
      ⟨25, 5, 10, 10⟩ := by
  decide

/-- C4: for every field name (after the suffix-stripping and
capitalisation of `compute_risk_score`), the unresolved-field weight is
strictly greater than the changed-field weight, defaults included. -/
theorem C4_failed_weight_gt_modified (f : String) :
    MODIFIED_WEIGHTS_get (baseOf f) < FAILED_WEIGHTS_get (baseOf f) := by
  unfold MODIFIED_WEIGHTS_get FAILED_WEIGHTS_get
  split_ifs <;> decide

/-- `cellRegGet` succeeding implies dictionary membership. -/
theorem cellKeyMem_of_get {reg : Registry} {c : Cell} {l : List Contract}
    (h : cellRegGet reg c = some l) : cellKeyMem reg c = true := by
  cases c <;> simp_all [cellRegGet, cellKeyMem, Option.isSome]

/-- C8: when the cleaned provider has exactly one registry contract, the
raw title is not among the provider's known titles (which covers an
absent `None`/`NaN` title, never a member of a set of strings), and the
raw contract number is non-blank, `clean_title` returns that single
contract's title with the resolved-changed flag — whatever the number. -/
theorem C8_single_contract_title (reg : Registry)
    (provider_clean contract_title contract_num : Cell) (c : Contract)
    (hreg : cellRegGet reg provider_clean = some [c])
    (htitle : cellInStrs contract_title [c.contract_title] = false)
    (hnum : isBlankCell contract_num = false) :
    clean_title provider_clean contract_title contract_num reg =
      (some true, .str c.contract_title) := by
  unfold clean_title
  rw [cellKeyMem_of_get hreg, hreg]
  simp [htitle, hnum]

/-- Witness for C8: single-contract provider, wrong title, wrong but
non-blank number. -/
theorem C8_single_contract_title_witness :
    clean_title (.str "Acme") (.str "Wrong title") (.str "999")
      [("Acme", [⟨"Road works", "7001"⟩])] =
      (some true, .str "Road works") :=
  C8_single_contract_title _ _ _ _ ⟨"Road works", "7001"⟩
    (by decide) (by decide) (by decide)

/-- Closed form of the `record_issue` fold from an arbitrary accumulator. -/
theorem record_issue_foldl (flagCols : List (String × Option Bool)) :
    ∀ acc, flagCols.foldl recordIssueStep acc =
      (acc.1 ++ (flagCols.filter (fun p => p.2.isNone)).map
          (fun p => fieldNameOf p.1),
        acc.2 ++ (flagCols.filter (fun p => p.2 == some true)).map
          (fun p => fieldNameOf p.1)) := by
  induction flagCols with
  | nil => intro acc; simp
  | cons p rest ih =>
    intro acc
    match hp : p.2 with
    | none => simp [recordIssueStep, hp, ih]
    | some true => simp [recordIssueStep, hp, ih]
    | some false => simp [recordIssueStep, hp, ih]

/-- C3: for every record, each flagged field lands in exactly one of the
two ledger sets or in neither — it is in `FailedFields` iff its flag is
the unresolved `None`/`NaN` state, in `ModifiedFields` iff its flag is
`True`, and (given distinct field names, as the distinct `*_Flag`
columns of a data frame guarantee) never in both. -/
theorem C3_ledger_partition (flagCols : List (String × Option Bool))
    (hnd : (flagCols.map (fun p => fieldNameOf p.1)).Nodup) (f : String) :
    (f ∈ (record_issue flagCols).1 ↔
      ∃ p ∈ flagCols, fieldNameOf p.1 = f ∧ p.2 = none) ∧
    (f ∈ (record_issue flagCols).2 ↔
      ∃ p ∈ flagCols, fieldNameOf p.1 = f ∧ p.2 = some true) ∧
    ¬(f ∈ (record_issue flagCols).1 ∧ f ∈ (record_issue flagCols).2) := by
  have hspec := record_issue_foldl flagCols ([], [])
  have h1 : f ∈ (record_issue flagCols).1 ↔
      ∃ p ∈ flagCols, fieldNameOf p.1 = f ∧ p.2 = none := by
    rw [record_issue, hspec]
    simp only [List.nil_append, List.mem_map, List.mem_filter]
    constructor
    · rintro ⟨p, ⟨hm, hn⟩, he⟩
      exact ⟨p, hm, he, Option.isNone_iff_eq_none.mp hn⟩
    · rintro ⟨p, hm, he, hn⟩
      exact ⟨p, ⟨hm, by simp [hn]⟩, he⟩
  have h2 : f ∈ (record_issue flagCols).2 ↔
      ∃ p ∈ flagCols, fieldNameOf p.1 = f ∧ p.2 = some true := by
    rw [record_issue, hspec]
    simp only [List.nil_append, List.mem_map, List.mem_filter]
    constructor
    · rintro ⟨p, ⟨hm, hn⟩, he⟩
      exact ⟨p, hm, he, by simpa using hn⟩
    · rintro ⟨p, hm, he, hn⟩
      exact ⟨p, ⟨hm, by simp [hn]⟩, he⟩
  refine ⟨h1, h2, ?_⟩
  rintro ⟨hf, hm⟩
  obtain ⟨p, hpm, hpe, hpflag⟩ := h1.mp hf
  obtain ⟨q, hqm, hqe, hqflag⟩ := h2.mp hm
  have : p = q :=
    List.inj_on_of_nodup_map hnd hpm hqm (by rw [hpe, hqe])
  rw [this, hqflag] at hpflag
  exact Option.noConfusion hpflag

/-- Witness for C3 at a concrete flag-column list. -/
theorem C3_ledger_partition_witness :
    (("InvoiceAmount" ∈
        (record_issue [("Provider_Flag", some true),
          ("InvoiceAmount_Flag", none), ("InvoiceDate_Flag", some false)]).1 ↔
      ∃ p ∈ [("Provider_Flag", some true), ("InvoiceAmount_Flag", none),
          ("InvoiceDate_Flag", some false)],
        fieldNameOf p.1 = "InvoiceAmount" ∧ p.2 = none) ∧
     ("InvoiceAmount" ∈
        (record_issue [("Provider_Flag", some true),
          ("InvoiceAmount_Flag", none), ("InvoiceDate_Flag", some false)]).2 ↔
      ∃ p ∈ [("Provider_Flag", some true), ("InvoiceAmount_Flag", none),
          ("InvoiceDate_Flag", some false)],
        fieldNameOf p.1 = "InvoiceAmount" ∧ p.2 = some true) ∧
     ¬("InvoiceAmount" ∈
        (record_issue [("Provider_Flag", some true),
          ("InvoiceAmount_Flag", none), ("InvoiceDate_Flag", some false)]).1 ∧
       "InvoiceAmount" ∈
        (record_issue [("Provider_Flag", some true),
          ("InvoiceAmount_Flag", none), ("InvoiceDate_Flag", some false)]).2)) :=
  C3_ledger_partition _ (by decide) "InvoiceAmount"

/-- C6: `"1.2m"` with the default unit yields `1200000.0` with the
resolved-changed flag; in general, any amount string containing a
millions marker whose digit/dot remainder parses as a decimal is mapped
to that decimal times the configured unit, flagged resolved-changed. -/
theorem C6_millions_marker :
    clean_invoice_amount (.str "1.2m") = (some true, .num 1200000) ∧
    ∀ (s : String) (q : ℚ),
      containsChar (pyStrip (pyLower (pyStrip s))) 'm' = true →
      parseFloat (keepNumChars (pyStrip (removeM
        (pyStrip (pyLower (pyStrip s)))))) = some q →
      clean_invoice_amount (.str s) = (some true, .num (q * DEFAULT_UNIT)) := by
  constructor
  · have hp : parseFloat "1.2" = some (6 / 5) := by
      unfold parseFloat
      rw [if_pos (by decide)]
      refine congrArg some ?_
      show ((1 : ℕ) : ℚ) + ((2 : ℕ) : ℚ) / 10 ^ (1 : ℕ) = 6 / 5
      norm_num
    simp only [clean_invoice_amount, cleanAmountStr]
    rw [show containsChar (pyStrip (pyLower (pyStrip "1.2m"))) 'm' = true from
      by decide]
    rw [show keepNumChars (pyStrip (removeM (pyStrip (pyLower
      (pyStrip "1.2m"))))) = "1.2" from by decide]
    rw [hp]
    norm_num [DEFAULT_UNIT]
  · intro s q h1 h2
    simp only [clean_invoice_amount, cleanAmountStr]
    rw [h1, h2]
    rfl

/-- Witness for the universally quantified part of C6, at `"1.5m"`. -/
theorem C6_millions_marker_witness :
    clean_invoice_amount (.str "1.5m") =
      (some true, .num ((3 / 2) * DEFAULT_UNIT)) :=
  C6_millions_marker.2 "1.5m" (3 / 2) (by decide)
    (by
      unfold parseFloat
      rw [if_pos (by decide)]
      refine congrArg some ?_
      show ((1 : ℕ) : ℚ) + ((5 : ℕ) : ℚ) / 10 ^ (1 : ℕ) = 3 / 2
      norm_num)

/-- C7: `"VictorianYMCA"` against a registry holding `"Victorian YMCA"`,
when the strict pass scores below 80: the lenient pass camel-splits the
input to `"Victorian YMCA"`, and a lenient score above 60 yields
`(resolved-changed, "Victorian YMCA")`. -/
theorem C7_camel_case_lenient (score : String → String → Nat)
    (h1 : score "VictorianYMCA" "Victorian YMCA" < 80)
    (h2 : 60 < score "Victorian YMCA" "Victorian YMCA") :
    clean_provider score (.str "VictorianYMCA") ["Victorian YMCA"] 80 60 =
      (some true, .str "Victorian YMCA") := by
  show (if 80 ≤ score "VictorianYMCA" "Victorian YMCA"
      then ((some true : Option Bool), Cell.str "Victorian YMCA")
      else lenientPass score "VictorianYMCA" ["Victorian YMCA"] 60) =
    (some true, Cell.str "Victorian YMCA")
  rw [if_neg (by omega)]
  show (if 60 < score "Victorian YMCA" "Victorian YMCA"
      then ((some true : Option Bool), Cell.str "Victorian YMCA")
      else ((none : Option Bool), Cell.str "VictorianYMCA")) =
    (some true, Cell.str "Victorian YMCA")
  exact if_pos h2

/-- Witness for C7 with a concrete scorer failing the strict pass and
accepting the lenient one. -/
theorem C7_camel_case_lenient_witness :
    clean_provider (fun a b => if a = b then 100 else 0)
      (.str "VictorianYMCA") ["Victorian YMCA"] 80 60 =
      (some true, .str "Victorian YMCA") :=
  C7_camel_case_lenient (fun a b => if a = b then 100 else 0)
    (by decide) (by decide)

/-- The best-so-far fold of `extractOne` only moves to members of the
remaining choice list. -/
theorem extractOne_foldl_mem (score : String → String → Nat) (q : String)
    (cs : List String) : ∀ b : String × Nat,
    (cs.foldl (fun best x =>
      if score q x > best.2 then (x, score q x) else best) b).1 = b.1 ∨
    (cs.foldl (fun best x =>
      if score q x > best.2 then (x, score q x) else best) b).1 ∈ cs := by
  induction cs with
  | nil => intro b; exact Or.inl rfl
  | cons x cs ih =>
    intro b
    simp only [List.foldl_cons]
    by_cases hc : score q x > b.2
    · rw [if_pos hc]
      rcases ih (x, score q x) with h | h
      · rw [h]; exact Or.inr (List.mem_cons_self x cs)
      · exact Or.inr (List.mem_cons_of_mem x h)
    · rw [if_neg hc]
      rcases ih b with h | h
      · exact Or.inl h
      · exact Or.inr (List.mem_cons_of_mem x h)

/-- The best-so-far fold of `extractOne` never lowers the score and ends
at least as high as the score of every remaining choice. -/
theorem extractOne_foldl_ge (score : String → String → Nat) (q : String)
    (cs : List String) : ∀ b : String × Nat,
    b.2 ≤ (cs.foldl (fun best x =>
      if score q x > best.2 then (x, score q x) else best) b).2 ∧
    ∀ x ∈ cs, score q x ≤ (cs.foldl (fun best x =>
      if score q x > best.2 then (x, score q x) else best) b).2 := by
  induction cs with
  | nil => intro b; exact ⟨Nat.le_refl _, by simp⟩
  | cons x cs ih =>
    intro b
    simp only [List.foldl_cons]
    obtain ⟨h1, h2⟩ := ih (if score q x > b.2 then (x, score q x) else b)
    have hb : b.2 ≤ (if score q x > b.2 then (x, score q x) else b).2 := by
      by_cases hc : score q x > b.2
      · rw [if_pos hc]; exact Nat.le_of_lt hc
      · rw [if_neg hc]
    have hx : score q x ≤ (if score q x > b.2 then (x, score q x) else b).2 := by
      by_cases hc : score q x > b.2
      · rw [if_pos hc]
      · rw [if_neg hc]; exact Nat.le_of_not_lt hc
    refine ⟨Nat.le_trans hb h1, ?_⟩
    intro y hy
    rcases List.mem_cons.mp hy with rfl | hy
    · exact Nat.le_trans hx h1
    · exact h2 y hy

/-- A successful `extractOne` returns a member of the choice list. -/
theorem extractOne_mem {score : String → String → Nat} {q : String}
    {l : List String} {r : String × Nat}
    (h : extractOne score q l = some r) : r.1 ∈ l := by
  cases l with
  | nil => exact Option.noConfusion h
  | cons c cs =>
    have hr := Option.some.inj h
    subst hr
    rcases extractOne_foldl_mem score q cs (c, score q c) with hm | hm
    · rw [hm]; exact List.mem_cons_self c cs
    · exact List.mem_cons_of_mem c hm

/-- A successful `extractOne` scores at least every choice. -/
theorem extractOne_le {score : String → String → Nat} {q : String}
    {l : List String} {r : String × Nat}
    (h : extractOne score q l = some r) : ∀ x ∈ l, score q x ≤ r.2 := by
  cases l with
  | nil => exact Option.noConfusion h
  | cons c cs =>
    have hr := Option.some.inj h
    subst hr
    obtain ⟨h1, h2⟩ := extractOne_foldl_ge score q cs (c, score q c)
    intro x hx
    rcases List.mem_cons.mp hx with rfl | hx
    · exact h1
    · exact h2 x hx

/-- `extractOne` fails only on an empty choice list. -/
theorem extractOne_eq_none {score : String → String → Nat} {q : String}
    {l : List String} (h : extractOne score q l = none) : l = [] := by
  cases l with
  | nil => rfl
  | cons c cs => exact Option.noConfusion h

/-- C10: assuming the token-set scorer gives every string similarity 100
with itself, the lenient pass can never return resolved-unchanged: when
every strict-pass outcome scores below 80, `clean_provider` never
produces the flag `False` — the lenient `(False, original)` branch is
unreachable. -/
theorem C10_lenient_never_unchanged (score : String → String → Nat)
    (choices : List String) (s : String)
    (hself : ∀ t, score t t = 100)
    (hstrict : ∀ r, extractOne score (pyStrip s) choices = some r →
      r.2 < 80) :
    ∀ v, clean_provider score (.str s) choices 80 60 ≠ (some false, v) := by
  intro v h
  by_cases hs : s = ""
  · simp [clean_provider, hs] at h
  · simp only [clean_provider, if_neg hs] at h
    rcases heq : extractOne score (pyStrip s) choices with _ | r
    · rw [heq] at h
      have hchoices := extractOne_eq_none heq
      simp [lenientPass, hchoices, extractOne] at h
    · simp only [heq] at h
      have hlt := hstrict r heq
      rw [if_neg (by omega)] at h
      simp only [lenientPass] at h
      rcases heq2 : extractOne score
          (pyStrip (stripAUS (pyStrip (camelSplit (pyStrip s)))))
          choices with _ | b
      · simp only [heq2] at h; simp at h
      · simp only [heq2] at h
        by_cases h60 : b.2 > 60
        · rw [if_pos h60] at h
          by_cases hb : b.1 ≠ pyStrip s
          · rw [if_pos hb] at h; simp at h
          · rw [if_neg hb] at h
            push_neg at hb
            have hbm : b.1 ∈ choices := extractOne_mem heq2
            rw [hb] at hbm
            have := extractOne_le heq (pyStrip s) hbm
            rw [hself (pyStrip s)] at this
            omega
        · rw [if_neg h60] at h; simp at h

/-- Witness for C10: constant scorer, empty registry. -/
theorem C10_lenient_never_unchanged_witness :
    clean_provider (fun _ _ => 100) (.str "x") [] 80 60 ≠
      (some false, .str "x") :=
  C10_lenient_never_unchanged (fun _ _ => 100) [] "x" (fun _ => rfl)
    (fun _ h => Option.noConfusion h) (.str "x")

/-- Shape of every `lenientPass` outcome: unresolved or unchanged results
carry the stripped original, changed results carry a matched name. -/
theorem lenientPass_shape (score : String → String → Nat) (original : String)
    (choices : List String) (low : Nat) :
    lenientPass score original choices low = (none, .str original) ∨
    (∃ b, lenientPass score original choices low = (some true, .str b)) ∨
    lenientPass score original choices low = (some false, .str original) := by
  simp only [lenientPass]
  rcases heq : extractOne score (pyStrip (stripAUS (pyStrip
      (camelSplit original)))) choices with _ | b
  · exact Or.inl rfl
  · dsimp only
    by_cases h60 : b.2 > low
    · rw [if_pos h60]
      by_cases hb : b.1 ≠ original
      · rw [if_pos hb]; exact Or.inr (Or.inl ⟨b.1, rfl⟩)
      · rw [if_neg hb]; exact Or.inr (Or.inr rfl)
    · rw [if_neg h60]; exact Or.inl rfl

/-- Shape of every `clean_provider` outcome on a non-empty string. -/
theorem clean_provider_str_shape (score : String → String → Nat)
    (choices : List String) (high low : Nat) (s : String) (hs : ¬s = "") :
    clean_provider score (.str s) choices high low =
      (none, .str (pyStrip s)) ∨
    (∃ b, clean_provider score (.str s) choices high low =
      (some true, .str b)) ∨
    clean_provider score (.str s) choices high low =
      (some false, .str (pyStrip s)) := by
  simp only [clean_provider, if_neg hs]
  rcases heq : extractOne score (pyStrip s) choices with _ | r
  · exact lenientPass_shape score (pyStrip s) choices low
  · dsimp only
    by_cases hr : r.2 ≥ high
    · rw [if_pos hr]
      by_cases hb : r.1 ≠ pyStrip s
      · rw [if_pos hb]; exact Or.inr (Or.inl ⟨r.1, rfl⟩)
      · rw [if_neg hb]; exact Or.inr (Or.inr rfl)
    · rw [if_neg hr]
      exact lenientPass_shape score (pyStrip s) choices low

/-- Shape of every `cleanAmountStr` outcome: a parsed number with a
resolved flag, or unresolved with the stripped original string. -/
theorem cleanAmountStr_shape (s : String) :
    (∃ flag q, cleanAmountStr s = (some flag, .num q)) ∨
    cleanAmountStr s = (none, .orig (.str (pyStrip s))) := by
  simp only [cleanAmountStr]
  by_cases hm : containsChar (pyStrip (pyLower (pyStrip s))) 'm' = true
  · rw [if_pos hm]
    rcases hp : parseFloat (keepNumChars (pyStrip (removeM (pyStrip
        (pyLower (pyStrip s)))))) with _ | q
    · exact Or.inr rfl
    · exact Or.inl ⟨true, q * DEFAULT_UNIT, rfl⟩
  · rw [if_neg hm]
    rcases hp : parseFloat (collapseDots (keepNumChars (pyStrip
        (pyLower (pyStrip s))))) with _ | q
    · exact Or.inr rfl
    · exact Or.inl ⟨_, q, rfl⟩

/-- Shape of every `cleanDateStr` outcome. -/
theorem cleanDateStr_shape (s : String) :
    (∃ t, cleanDateStr s = (some true, .str t)) ∨
    cleanDateStr s = (some false, .str (pyStrip s)) ∨
    cleanDateStr s = (none, .str (pyStrip s)) := by
  simp only [cleanDateStr]
  rcases ht : tryFormats dateFormats (splitDash (normalizeSeps
      (stripList s.data))) with _ | ymd
  · exact Or.inr (Or.inr rfl)
  · obtain ⟨y, m, d⟩ := ymd
    dsimp only
    by_cases hc : isoFormat y m d ≠ pyStrip s
    · rw [if_pos hc]; exact Or.inl ⟨isoFormat y m d, rfl⟩
    · rw [if_neg hc]; exact Or.inr (Or.inl rfl)

/-- C9 (amended): the three normalizers are total functions (no
exception can escape); whenever one leaves a field unresolved
(flag `None`) the retained value is the original input up to the
`str(...).strip()` the source applies before matching — missing, blank
and non-string inputs are returned exactly as given, parse failures
return the stripped string form of the original — and the cleaned value
is null exactly when the input itself was null. -/
theorem C9_unresolved_preserves_input (score : String → String → Nat)
    (choices : List String) (high low : Nat) (c : Cell) :
    (((clean_provider score c choices high low).1 = none →
        (clean_provider score c choices high low).2 = c ∨
        (clean_provider score c choices high low).2 =
          .str (pyStrip c.strForm)) ∧
      ((clean_provider score c choices high low).2 = Cell.null ↔
        c = Cell.null)) ∧
    (((clean_invoice_amount c).1 = none →
        (clean_invoice_amount c).2 = .orig c ∨
        (clean_invoice_amount c).2 = .orig (.str (pyStrip c.strForm))) ∧
      ((clean_invoice_amount c).2 = .orig Cell.null ↔ c = Cell.null)) ∧
    (((clean_date c).1 = none →
        (clean_date c).2 = c ∨
        (clean_date c).2 = .str (pyStrip c.strForm)) ∧
      ((clean_date c).2 = Cell.null ↔ c = Cell.null)) := by
  cases c with
  | null =>
    exact ⟨⟨fun _ => Or.inl rfl, Iff.rfl⟩,
      ⟨fun _ => Or.inl rfl, by decide⟩, ⟨fun _ => Or.inl rfl, Iff.rfl⟩⟩
  | nan =>
    refine ⟨⟨fun _ => Or.inl rfl, Iff.rfl⟩,
      ⟨fun _ => Or.inl rfl, by decide⟩, ⟨fun _ => Or.inl rfl, Iff.rfl⟩⟩
  | obj s =>
    refine ⟨⟨fun _ => Or.inl rfl, Iff.rfl⟩, ⟨?_, ?_⟩,
      ⟨fun _ => Or.inl rfl, Iff.rfl⟩⟩
    · intro hflag
      rcases cleanAmountStr_shape s with ⟨flag, q, hsh⟩ | hsh
      · have : clean_invoice_amount (.obj s) = (some flag, .num q) := hsh
        rw [this] at hflag
        exact Option.noConfusion hflag
      · have : clean_invoice_amount (.obj s) =
            (none, .orig (.str (pyStrip s))) := hsh
        rw [this]
        exact Or.inr rfl
    · rcases cleanAmountStr_shape s with ⟨flag, q, hsh⟩ | hsh
      · have : clean_invoice_amount (.obj s) = (some flag, .num q) := hsh
        rw [this]; simp
      · have : clean_invoice_amount (.obj s) =
            (none, .orig (.str (pyStrip s))) := hsh
        rw [this]; simp
  | str s =>
    refine ⟨⟨?_, ?_⟩, ⟨?_, ?_⟩, ⟨?_, ?_⟩⟩
    · intro hflag
      by_cases hs : s = ""
      · subst hs
        exact Or.inl rfl
      · rcases clean_provider_str_shape score choices high low s hs with
          hsh | ⟨b, hsh⟩ | hsh
        · rw [hsh]; exact Or.inr rfl
        · rw [hsh] at hflag; exact Option.noConfusion hflag
        · rw [hsh] at hflag; exact Option.noConfusion hflag
    · by_cases hs : s = ""
      · subst hs; exact Iff.rfl
      · rcases clean_provider_str_shape score choices high low s hs with
          hsh | ⟨b, hsh⟩ | hsh <;> rw [hsh] <;> simp
    · intro hflag
      rcases cleanAmountStr_shape s with ⟨flag, q, hsh⟩ | hsh
      · have : clean_invoice_amount (.str s) = (some flag, .num q) := hsh
        rw [this] at hflag
        exact Option.noConfusion hflag
      · have : clean_invoice_amount (.str s) =
            (none, .orig (.str (pyStrip s))) := hsh
        rw [this]
        exact Or.inr rfl
    · rcases cleanAmountStr_shape s with ⟨flag, q, hsh⟩ | hsh
      · have : clean_invoice_amount (.str s) = (some flag, .num q) := hsh
        rw [this]; simp
      · have : clean_invoice_amount (.str s) =
            (none, .orig (.str (pyStrip s))) := hsh
        rw [this]; simp
    · intro hflag
      by_cases hb : pyStrip s = ""
      · have : clean_date (.str s) = (none, .str s) := by
          simp [clean_date, hb]
        rw [this]
        exact Or.inl rfl
      · have hcd : clean_date (.str s) = cleanDateStr s := by
          simp [clean_date, hb]
        rcases cleanDateStr_shape s with ⟨t, hsh⟩ | hsh | hsh
        · rw [hcd, hsh] at hflag; exact Option.noConfusion hflag
        · rw [hcd, hsh] at hflag; exact Option.noConfusion hflag
        · rw [hcd, hsh]; exact Or.inr rfl
    · by_cases hb : pyStrip s = ""
      · have : clean_date (.str s) = (none, .str s) := by
          simp [clean_date, hb]
        rw [this]
      · have hcd : clean_date (.str s) = cleanDateStr s := by
          simp [clean_date, hb]
        rcases cleanDateStr_shape s with ⟨t, hsh⟩ | hsh | hsh <;>
          rw [hcd, hsh] <;> simp

/-- Counterexample to C9 as stated: the malformed date `" %% "` is left
unresolved, but the retained value is the stripped `"%%"`, not the
original input `" %% "` unchanged. -/
theorem C9_counterexample_strip :
    (clean_date (.str " %% ")).1 = none ∧
    (clean_date (.str " %% ")).2 ≠ Cell.str " %% " := by decide

/-- Witness for C9 (amended), applying it to the malformed date
`" %% "`. -/
theorem C9_unresolved_preserves_input_witness :
    (clean_date (.str " %% ")).2 = Cell.str " %% " ∨
    (clean_date (.str " %% ")).2 =
      .str (pyStrip (Cell.str " %% ").strForm) :=
  (C9_unresolved_preserves_input (fun _ _ => 0) [] 80 60
    (.str " %% ")).2.2.1 (by decide)

/-- `dropWhile` is the identity when no element satisfies the predicate. -/
theorem dropWhile_of_all_false {α : Type} {p : α → Bool} :
    ∀ cs : List α, (∀ c ∈ cs, p c = false) → cs.dropWhile p = cs := by
  intro cs h
  cases cs with
  | nil => rfl
  | cons c rest =>
    rw [List.dropWhile_cons, h c (List.mem_cons_self c rest)]
    simp

/-- `strip()` is the identity on a list without leading or trailing
whitespace anywhere. -/
theorem stripList_of_nonspace {cs : List Char}
    (h : ∀ c ∈ cs, isPySpace c = false) : stripList cs = cs := by
  unfold stripList
  rw [dropWhile_of_all_false cs h]
  rw [dropWhile_of_all_false cs.reverse (fun c hc => h c (List.mem_reverse.mp hc))]
  exact List.reverse_reverse cs

/-- Character-class facts about digits and the dot. -/
theorem digit_dot_char_facts {c : Char} (h : (isDig c || c = '.') = true) :
    isPySpace c = false ∧ lowerChar c = c ∧ ¬c = 'm' := by
  rcases Bool.or_eq_true_iff.mp h with hd | hdot
  · simp only [isDig, Bool.and_eq_true, decide_eq_true_eq] at hd
    refine ⟨?_, ?_, ?_⟩
    · simp only [isPySpace]
      simp only [Bool.or_eq_false_iff, decide_eq_false_iff_not]
      omega
    · simp only [lowerChar]
      rw [if_neg (by omega)]
    · intro he
      subst he
      simp at hd
  · have : c = '.' := by simpa using hdot
    subst this
    exact ⟨rfl, rfl, by decide⟩

/-- The numeric-string identity facts behind amount idempotence: on a
digit/dot string, `strip`, `lower` and the digit/dot filter are all the
identity, and the string contains no millions marker. -/
theorem numeric_string_facts {s : String}
    (hs : s.data.all (fun c => isDig c || c = '.') = true) :
    pyStrip s = s ∧ pyLower s = s ∧ containsChar s 'm' = false ∧
    keepNumChars s = s := by
  have hall : ∀ c ∈ s.data, (isDig c || c = '.') = true := by
    intro c hc
    exact List.all_eq_true.mp hs c hc
  have h1 : stripList s.data = s.data :=
    stripList_of_nonspace (fun c hc => (digit_dot_char_facts (hall c hc)).1)
  have h2 : s.data.map lowerChar = s.data := by
    calc s.data.map lowerChar = s.data.map id :=
          List.map_congr_left
            (fun c hc => (digit_dot_char_facts (hall c hc)).2.1)
      _ = s.data := List.map_id s.data
  have h3 : ¬('m' ∈ s.data) := by
    intro hm
    have := hall 'm' hm
    simp [isDig] at this
  have h4 : s.data.filter (fun c => isDig c || c = '.') = s.data :=
    List.filter_eq_self.mpr hall
  refine ⟨?_, ?_, ?_, ?_⟩
  · show String.mk (stripList s.data) = s
    rw [h1]
  · show String.mk (s.data.map lowerChar) = s
    rw [h2]
  · show s.data.contains 'm' = false
    simpa using h3
  · show String.mk (s.data.filter (fun c => isDig c || c = '.')) = s
    rw [h4]

/-- A successful `parseFloat` implies the parse guard held. -/
theorem parseFloat_guard {s : String} {q : ℚ} (h : parseFloat s = some q) :
    (s.data.all (fun c => isDig c || c = '.') &&
      (decide (s.data.count '.' ≤ 1)) && s.data.any isDig) = true := by
  by_cases hg : (s.data.all (fun c => isDig c || c = '.') &&
      (decide (s.data.count '.' ≤ 1)) && s.data.any isDig) = true
  · exact hg
  · unfold parseFloat at h
    rw [if_neg (by exact fun hc => hg (by simpa using hc))] at h
    exact Option.noConfusion h

/-- Idempotence of `cleanAmountStr` on plain digit/dot float strings. -/
theorem cleanAmountStr_plain {s : String} {q : ℚ}
    (hs : s.data.all (fun c => isDig c || c = '.') = true)
    (hq : parseFloat s = some q) :
    cleanAmountStr s = (some false, .num q) := by
  obtain ⟨h1, h2, h3, h4⟩ := numeric_string_facts hs
  have hcount : s.data.count '.' ≤ 1 := by
    have := parseFloat_guard hq
    simp only [Bool.and_eq_true, decide_eq_true_eq] at this
    exact this.1.2
  have h5 : collapseDots s = s := by
    unfold collapseDots
    rw [if_neg (by omega)]
  simp only [cleanAmountStr]
  rw [h1, h2, h1, h3]
  simp only [Bool.false_eq_true, if_false]
  rw [h4, h5, hq]
  simp

/-- The ten possible values of `n % 10`. -/
theorem mod10_cases (n : Nat) :
    n % 10 = 0 ∨ n % 10 = 1 ∨ n % 10 = 2 ∨ n % 10 = 3 ∨ n % 10 = 4 ∨
    n % 10 = 5 ∨ n % 10 = 6 ∨ n % 10 = 7 ∨ n % 10 = 8 ∨ n % 10 = 9 := by
  omega

/-- Everything needed about the digit characters `strftime` emits. -/
theorem digChar_facts (n : Nat) :
    isDig (digChar n) = true ∧ digVal (digChar n) = n % 10 ∧
    isPySpace (digChar n) = false ∧ ¬digChar n = '-' ∧
    ¬digChar n = ',' ∧ ¬digChar n = '/' ∧ ¬digChar n = ' ' := by
  rcases mod10_cases n with h | h | h | h | h | h | h | h | h | h <;>
    simp only [digChar, h] <;>
    exact ⟨by decide, by decide, by decide, by decide, by decide,
      by decide, by decide⟩

/-- `%Y` parses its own zero-padded four-digit rendering. -/
theorem parse_pad4 (y : Nat) (hy : y ≤ 9999) :
    parseComp .Y4 (pad4 y) = some y := by
  obtain ⟨d1, v1, -⟩ := digChar_facts (y / 1000 % 10)
  obtain ⟨d2, v2, -⟩ := digChar_facts (y / 100 % 10)
  obtain ⟨d3, v3, -⟩ := digChar_facts (y / 10 % 10)
  obtain ⟨d4, v4, -⟩ := digChar_facts (y % 10)
  simp only [pad4, parseComp]
  rw [d1, d2, d3, d4]
  simp only [Bool.and_self, if_true]
  refine congrArg some ?_
  simp only [digitsToNat, List.foldl]
  rw [v1, v2, v3, v4]
  omega

/-- `%m` parses the zero-padded rendering of a real month. -/
theorem parse_pad2_m (m : Nat) (h1 : 1 ≤ m) (h2 : m ≤ 12) :
    parseComp .m2 (pad2 m) = some m := by
  obtain ⟨d1, v1, -⟩ := digChar_facts (m / 10 % 10)
  obtain ⟨d2, v2, -⟩ := digChar_facts (m % 10)
  have hv : digitsToNat (pad2 m) = m := by
    simp only [pad2, digitsToNat, List.foldl]
    rw [v1, v2]
    omega
  simp only [pad2] at hv ⊢
  simp only [parseComp, hv]
  rw [d1, d2]
  simp only [Bool.true_and]
  rw [if_pos (by simp; omega)]

/-- `%d` parses the zero-padded rendering of a real day. -/
theorem parse_pad2_d (d : Nat) (h1 : 1 ≤ d) (h2 : d ≤ 31) :
    parseComp .d2 (pad2 d) = some d := by
  obtain ⟨d1, v1, -, -, -, -, hsp⟩ := digChar_facts (d / 10 % 10)
  obtain ⟨d2, v2, -⟩ := digChar_facts (d % 10)
  have hv : digitsToNat (pad2 d) = d := by
    simp only [pad2, digitsToNat, List.foldl]
    rw [v1, v2]
    omega
  simp only [pad2] at hv ⊢
  simp only [parseComp, hv]
  rw [if_neg (by simpa using hsp)]
  rw [d1, d2]
  simp only [Bool.true_and]
  rw [if_pos (by simp; omega)]

/-- `splitDash` of a dash-free list is a single component. -/
theorem splitDash_no_dash : ∀ a : List Char, ('-' ∉ a) →
    splitDash a = [a] := by
  intro a
  induction a with
  | nil => intro; rfl
  | cons c rest ih =>
    intro h
    have hc : ¬c = '-' := fun he => h (he ▸ List.mem_cons_self c rest)
    have hrest : '-' ∉ rest := fun hm => h (List.mem_cons_of_mem c hm)
    show (if c = '-' then [] :: splitDash rest else
      match splitDash rest with
      | [] => [[c]]
      | h :: t => (c :: h) :: t) = [c :: rest]
    rw [if_neg hc, ih hrest]

/-- `splitDash` splits at the first dash after a dash-free prefix. -/
theorem splitDash_append : ∀ (a b : List Char), ('-' ∉ a) →
    splitDash (a ++ '-' :: b) = a :: splitDash b := by
  intro a
  induction a with
  | nil => intro b _; simp [splitDash]
  | cons c rest ih =>
    intro b h
    have hc : ¬c = '-' := fun he => h (he ▸ List.mem_cons_self c rest)
    have hrest : '-' ∉ rest := fun hm => h (List.mem_cons_of_mem c hm)
    rw [List.cons_append]
    show (if c = '-' then [] :: splitDash (rest ++ '-' :: b) else
      match splitDash (rest ++ '-' :: b) with
      | [] => [[c]]
      | h :: t => (c :: h) :: t) = (c :: rest) :: splitDash b
    rw [if_neg hc, ih b hrest]

/-- `splitDash` never returns the empty partition. -/
theorem splitDash_ne_nil : ∀ cs : List Char, splitDash cs ≠ [] := by
  intro cs
  cases cs with
  | nil => simp [splitDash]
  | cons c rest =>
    simp only [splitDash]
    by_cases hc : c = '-'
    · rw [if_pos hc]; simp
    · rw [if_neg hc]
      rcases hs : splitDash rest with _ | ⟨h, t⟩ <;> simp

/-- The dashes-and-digits character inventory of an ISO rendering. -/
theorem pad4_chars (n : Nat) : ∀ c ∈ pad4 n, ∃ k, c = digChar k := by
  intro c hc
  simp only [pad4, List.mem_cons, List.not_mem_nil, or_false] at hc
  rcases hc with h | h | h | h <;> exact ⟨_, h⟩

/-- Every character of `pad2` is a digit character. -/
theorem pad2_chars (n : Nat) : ∀ c ∈ pad2 n, ∃ k, c = digChar k := by
  intro c hc
  simp only [pad2, List.mem_cons, List.not_mem_nil, or_false] at hc
  rcases hc with h | h <;> exact ⟨_, h⟩

/-- The dashes-and-digits character inventory of an ISO rendering. -/
theorem iso_chars (y m d : Nat) :
    ∀ c ∈ pad4 y ++ '-' :: pad2 m ++ '-' :: pad2 d,
      c = '-' ∨ ∃ k, c = digChar k := by
  intro c hc
  rcases List.mem_append.mp hc with h | h
  · rcases List.mem_append.mp h with h1 | h1
    · exact Or.inr (pad4_chars y c h1)
    · rcases List.mem_cons.mp h1 with h2 | h2
      · exact Or.inl h2
      · exact Or.inr (pad2_chars m c h2)
  · rcases List.mem_cons.mp h with h1 | h1
    · exact Or.inl h1
    · exact Or.inr (pad2_chars d c h1)

/-- `pad4` contains no dash. -/
theorem pad4_no_dash (y : Nat) : '-' ∉ pad4 y := by
  intro h
  obtain ⟨k, hk⟩ := pad4_chars y '-' h
  exact (digChar_facts k).2.2.2.1 hk.symm

/-- `pad2` contains no dash. -/
theorem pad2_no_dash (m : Nat) : '-' ∉ pad2 m := by
  intro h
  obtain ⟨k, hk⟩ := pad2_chars m '-' h
  exact (digChar_facts k).2.2.2.1 hk.symm

/-- `strip`, comma removal and separator replacement are all the
identity on an ISO rendering. -/
theorem iso_normalize_id (y m d : Nat) :
    stripList (isoFormat y m d).data = (isoFormat y m d).data ∧
    normalizeSeps (isoFormat y m d).data = (isoFormat y m d).data := by
  have hdata : (isoFormat y m d).data =
      pad4 y ++ '-' :: pad2 m ++ '-' :: pad2 d := rfl
  have hchars := iso_chars y m d
  constructor
  · rw [hdata]
    refine stripList_of_nonspace ?_
    intro c hc
    rcases hchars c hc with h | ⟨k, h⟩
    · subst h; decide
    · subst h; exact (digChar_facts k).2.2.1
  · rw [hdata]
    unfold normalizeSeps
    have hfilter : (pad4 y ++ '-' :: pad2 m ++ '-' :: pad2 d).filter
        (fun c => c ≠ ',') = pad4 y ++ '-' :: pad2 m ++ '-' :: pad2 d := by
      refine List.filter_eq_self.mpr ?_
      intro c hc
      rcases hchars c hc with h | ⟨k, h⟩
      · subst h; decide
      · subst h
        simpa using (digChar_facts k).2.2.2.2.1
    rw [hfilter]
    calc (pad4 y ++ '-' :: pad2 m ++ '-' :: pad2 d).map
          (fun c => if c = '/' then '-' else if c = ' ' then '-' else c) =
        (pad4 y ++ '-' :: pad2 m ++ '-' :: pad2 d).map id := by
          refine List.map_congr_left ?_
          intro c hc
          rcases hchars c hc with h | ⟨k, h⟩
          · subst h; rfl
          · subst h
            obtain ⟨-, -, -, -, -, h6, h7⟩ := digChar_facts k
            simp only [id]
            rw [if_neg h6, if_neg h7]
      _ = _ := List.map_id _

/-- The ISO rendering splits back into its three components. -/
theorem iso_splitDash (y m d : Nat) :
    splitDash (isoFormat y m d).data = [pad4 y, pad2 m, pad2 d] := by
  have hdata : (isoFormat y m d).data =
      pad4 y ++ '-' :: pad2 m ++ '-' :: pad2 d := rfl
  rw [hdata, List.append_assoc, List.cons_append,
    splitDash_append _ _ (pad4_no_dash y),
    splitDash_append _ _ (pad2_no_dash m),
    splitDash_no_dash _ (pad2_no_dash d)]

/-- Every month has at most 31 days. -/
theorem daysInMonth_le (y m : Nat) : daysInMonth y m ≤ 31 := by
  unfold daysInMonth
  split_ifs <;> omega

/-- The first (`%Y-%m-%d`) format accepts the ISO rendering of every
valid date. -/
theorem parseFmt_iso (y m d : Nat) (hv : validDate y m d = true) :
    parseFmt (.Y4, .m2, .d2) [pad4 y, pad2 m, pad2 d] = some (y, m, d) := by
  have hb := hv
  simp only [validDate, Bool.and_eq_true, decide_eq_true_eq] at hb
  obtain ⟨⟨⟨⟨⟨hb1, hb2⟩, hb3⟩, hb4⟩, hb5⟩, hb6⟩ := hb
  have hd31 : d ≤ 31 := Nat.le_trans hb6 (daysInMonth_le y m)
  simp only [parseFmt, parse_pad4 y hb2, parse_pad2_m m hb3 hb4,
    parse_pad2_d d hb5 hd31]
  show (if validDate y m d = true then some (y, m, d) else none) =
    some (y, m, d)
  rw [if_pos hv]

/-- The first matching format of the `for fmt in formats` loop wins. -/
theorem tryFormats_cons_some {f : DComp × DComp × DComp}
    {fs : List (DComp × DComp × DComp)} {parts : List (List Char)}
    {ymd : Nat × Nat × Nat} (h : parseFmt f parts = some ymd) :
    tryFormats (f :: fs) parts = some ymd := by
  show (match parseFmt f parts with
    | some ymd => some ymd
    | none => tryFormats fs parts) = some ymd
  rw [h]

/-- The Date Normalizer leaves every valid zero-padded ISO date
unchanged, flagged resolved-unchanged. -/
theorem clean_date_iso_unchanged (y m d : Nat)
    (hv : validDate y m d = true) :
    clean_date (.str (isoFormat y m d)) =
      (some false, .str (isoFormat y m d)) := by
  obtain ⟨hstrip, hnorm⟩ := iso_normalize_id y m d
  have hps : pyStrip (isoFormat y m d) = isoFormat y m d := by
    show String.mk (stripList (isoFormat y m d).data) = isoFormat y m d
    rw [hstrip]
  have hne : ¬isoFormat y m d = "" := by
    intro h
    have : (isoFormat y m d).data = [] := by rw [h]
    rw [show (isoFormat y m d).data =
      pad4 y ++ '-' :: pad2 m ++ '-' :: pad2 d from rfl] at this
    simp [pad4] at this
  have htry : tryFormats dateFormats
      (splitDash (isoFormat y m d).data) = some (y, m, d) := by
    rw [iso_splitDash y m d]
    exact tryFormats_cons_some (parseFmt_iso y m d hv)
  simp only [clean_date]
  rw [hps, if_neg hne]
  simp only [cleanDateStr]
  rw [hstrip, hnorm, htry]
  dsimp only
  rw [hps]
  simp

/-- C5: idempotence of the Date and Amount Normalizers on already-clean
inputs.  (a) Every valid ISO `YYYY-MM-DD` date is returned unchanged
with the resolved-unchanged flag.  (b) Every plain float amount (a
digit string with at most one decimal point, as `str(float)` produces)
is returned as its numeric value with the resolved-unchanged flag,
whether supplied as a string or as a stringified non-string value. -/
theorem C5_idempotence :
    (∀ y m d, validDate y m d = true →
      clean_date (.str (isoFormat y m d)) =
        (some false, .str (isoFormat y m d))) ∧
    (∀ (s : String) (q : ℚ),
      s.data.all (fun c => isDig c || c = '.') = true →
      parseFloat s = some q →
      clean_invoice_amount (.str s) = (some false, .num q) ∧
      clean_invoice_amount (.obj s) = (some false, .num q)) := by
  constructor
  · exact clean_date_iso_unchanged
  · intro s q hs hq
    have h := cleanAmountStr_plain hs hq
    constructor
    · simp only [clean_invoice_amount]
      exact h
    · simp only [clean_invoice_amount]
      exact h

/-- Witness for C5 at the concrete date 2025-06-15 and amount `"12.5"`. -/
theorem C5_idempotence_witness :
    clean_date (.str (isoFormat 2025 6 15)) =
      (some false, .str (isoFormat 2025 6 15)) ∧
    clean_invoice_amount (.str "12.5") = (some false, .num (25 / 2)) :=
  ⟨C5_idempotence.1 2025 6 15 (by decide),
   (C5_idempotence.2 "12.5" (25 / 2) (by decide) (by
      unfold parseFloat
      rw [if_pos (by decide)]
      refine congrArg some ?_
      show ((12 : ℕ) : ℚ) + ((5 : ℕ) : ℚ) / 10 ^ (1 : ℕ) = 25 / 2
      norm_num)).1⟩

end Procurement
